import Mathlib

/-!
Verification of the FormPilot field-value validator
(`apps/formpilot-api/main.py`): the helper predicates
`_looks_like_url`, `_looks_like_linkedin_url`, `_looks_like_video_url`,
`_looks_like_email`, `_looks_like_phone`, the rule tables
`VALIDATION_RULES` and `LENGTH_CONSTRAINTS`, and the decision function
`validate_mapping`.

Strings are modelled as `List Char`; Python's `str.strip()`, `str.lower()`
and `str.split()` are modelled on the ASCII fragment (the repository only
feeds ASCII rule keys and messages through these helpers).  The two regular
expressions of the source are embedded as specialized backtracking matchers
whose boolean alternation mirrors the regex alternation.
-/

namespace FormPilot

/-- Strings, modelled as lists of characters. -/
abbrev Str := List Char

/-- Python `str` whitespace (ASCII part): the characters stripped by
`str.strip()` and matched by the regex class `\s`. -/
def isPySpace (c : Char) : Bool :=
  c == ' ' || c == '\t' || c == '\n' || c == '\r' || c == '\x0b' || c == '\x0c'

/-- Python `value.strip()`: drop leading and trailing whitespace. -/
def pyStrip (l : Str) : Str :=
  ((l.dropWhile isPySpace).reverse.dropWhile isPySpace).reverse

/-- Python `value.lower()` (ASCII). -/
def pyLower (l : Str) : Str := l.map Char.toLower

/-- Helper for `pySplit`: `acc` is the current token, reversed. -/
def pySplitAux : Str → Str → List Str
  | [], acc => if acc = [] then [] else [acc.reverse]
  | c :: rest, acc =>
    if isPySpace c then
      if acc = [] then pySplitAux rest [] else acc.reverse :: pySplitAux rest []
    else pySplitAux rest (c :: acc)

/-- Python `value.split()`: split on whitespace runs, no empty tokens. -/
def pySplit (l : Str) : List Str := pySplitAux l []

/-- Python `pat in s` substring containment on strings. -/
def containsSub (pat : Str) : Str → Bool
  | [] => pat.isPrefixOf []
  | c :: rest => pat.isPrefixOf (c :: rest) || containsSub pat rest

/-- Regex class `\w` (ASCII part): letters, digits, underscore. -/
def isWordChar (c : Char) : Bool := c.isAlphanum || c == '_'

/-- Regex class `[\w.-]`. -/
def isDomainChar (c : Char) : Bool := isWordChar c || c == '.' || c == '-'

/-- Regex class `[a-z]`. -/
def isLowerLetter (c : Char) : Bool := 'a' ≤ c && c ≤ 'z'

/-- Matcher for the suffix `[a-z]{2,}(/|$)` of the bare-domain regex, after
the literal dot; `k` counts the letters consumed so far.  The boolean `||`
is the regex backtracking alternation: stop the repetition here (needs
`2 ≤ k` and a following `/`, or the end of the string) or consume one more
lowercase letter. -/
def matchTld : Nat → Str → Bool
  | k, [] => decide (2 ≤ k)
  | k, c :: rest => (decide (2 ≤ k) && c == '/') || (isLowerLetter c && matchTld (k + 1) rest)

/-- Matcher for `re.match(r'^[\w.-]+\.[a-z]{2,}(/|$)', v)` of
`_looks_like_url`; `seen` records whether at least one `[\w.-]` character
has been consumed (the `+`).  At each character, either treat it as the
literal dot (if one class character was consumed) or consume it into the
class — both options are tried, as regex backtracking does. -/
def matchBareDomain : Str → Bool → Bool
  | [], _ => false
  | c :: rest, seen =>
    (seen && c == '.' && matchTld 0 rest) || (isDomainChar c && matchBareDomain rest true)

/-- Regex class `[^\s@]`. -/
def isEmailChar (c : Char) : Bool := !isPySpace c && c != '@'

/-- Matcher for `[^\s@]+$`: nonempty and every character in the class. -/
def emailTail (l : Str) : Bool := !l.isEmpty && l.all isEmailChar

/-- Matcher for `[^\s@]+\.[^\s@]+$`: `seen` records whether a class
character was consumed before the literal dot. -/
def emailDomain : Str → Bool → Bool
  | [], _ => false
  | c :: rest, seen =>
    (seen && c == '.' && emailTail rest) || (isEmailChar c && emailDomain rest true)

/-- Matcher for the anchored email regex `^[^\s@]+@[^\s@]+\.[^\s@]+$` of
`_looks_like_email`; `seen` records whether a class character was consumed
before the `@`. -/
def emailLocal : Str → Bool → Bool
  | [], _ => false
  | c :: rest, seen =>
    (seen && c == '@' && emailDomain rest false) || (isEmailChar c && emailLocal rest true)

/-- `re.match` of the email regex against a whole string. -/
def matchEmail (l : Str) : Bool := emailLocal l false

/-- `_looks_like_url(value)`; `v = value.lower().strip()` is written out as
`pyStrip (pyLower value)` at each use. -/
def looks_like_url (value : Str) : Bool :=
  if value = [] ∨ value.length > 2000 then false
  else
    if "http://".data.isPrefixOf (pyStrip (pyLower value)) ∨
        "https://".data.isPrefixOf (pyStrip (pyLower value)) then true
    else if matchBareDomain (pyStrip (pyLower value)) false then true
    else false

/-- `_looks_like_linkedin_url(value)`; `v = value.lower().strip()` is written
out as `pyStrip (pyLower value)` at each use. -/
def looks_like_linkedin_url (value : Str) : Bool :=
  if value = [] ∨ value.length > 2000 then false
  else
    if containsSub "linkedin".data (pyStrip (pyLower value)) ∨
        "http".data.isPrefixOf (pyStrip (pyLower value)) ∨
        (containsSub "/".data (pyStrip (pyLower value)) ∧
         containsSub ".".data (pyStrip (pyLower value))) then true
    else if "linkedin.com/".data.isPrefixOf (pyStrip (pyLower value)) ∨
        "www.linkedin.com/".data.isPrefixOf (pyStrip (pyLower value)) then true
    else false

/-- The `video_domains` list of `_looks_like_video_url`. -/
def video_domains : List Str :=
  ["loom.com".data, "youtube.com".data, "youtu.be".data,
   "vimeo.com".data, "wistia.com".data, "vidyard.com".data]

/-- `_looks_like_video_url(value)`; `v = value.lower().strip()` is written
out as `pyStrip (pyLower value)` at the use. -/
def looks_like_video_url (value : Str) : Bool :=
  if value = [] then false
  else
    if video_domains.any (fun d => containsSub d (pyStrip (pyLower value))) then true
    else looks_like_url value

/-- `_looks_like_email(value)`. -/
def looks_like_email (value : Str) : Bool :=
  if value = [] ∨ value.length > 320 then false
  else matchEmail (pyStrip value)

/-- `_looks_like_phone(value)`: strip `[\s\-.()+]`, then require 7–15
digits (`str.isdigit()` also requires nonemptiness). -/
def looks_like_phone (value : Str) : Bool :=
  if value = [] then false
  else
    let digits := value.filter
      (fun c => !(isPySpace c || c == '-' || c == '.' || c == '(' || c == ')' || c == '+'))
    decide (7 ≤ digits.length) && decide (digits.length ≤ 15) &&
      (!digits.isEmpty && digits.all Char.isDigit)

/-- A Python dict with string keys, as an association list; `dictGet` is
`d.get(key)`. -/
def dictGet {β : Type} (d : List (Str × β)) (key : Str) : Option β :=
  (d.find? (fun e => e.1 == key)).map (fun e => e.2)

/-- The entries of the `VALIDATION_RULES` dict:
semantic type ↦ (validator, error message). -/
def VALIDATION_RULES_table : List (Str × ((Str → Bool) × Str)) :=
  [("email".data, (looks_like_email, "must be a valid email address".data)),
   ("phone".data, (looks_like_phone, "must be a valid phone number".data)),
   ("website".data, (looks_like_url, "must be a valid URL".data)),
   ("linkedinUrl".data, (looks_like_linkedin_url, "must be a LinkedIn URL".data)),
   ("twitterUrl".data, (looks_like_url, "must be a valid Twitter/X URL".data)),
   ("videoUrl".data, (looks_like_video_url, "must be a video URL (Loom, YouTube, etc.)".data)),
   ("pitchDeckUrl".data, (looks_like_url, "must be a valid URL".data))]

/-- Lookup in `VALIDATION_RULES`. -/
def VALIDATION_RULES (st : Str) : Option ((Str → Bool) × Str) :=
  dictGet VALIDATION_RULES_table st

/-- The entries of the `LENGTH_CONSTRAINTS` dict: semantic type ↦ (min, max). -/
def LENGTH_CONSTRAINTS_table : List (Str × (Nat × Nat)) :=
  [("shortDescription".data, (20, 500)),
   ("description".data, (50, 5000)),
   ("traction".data, (20, 2000)),
   ("problemStatement".data, (20, 2000)),
   ("solutionStatement".data, (20, 2000)),
   ("whyNow".data, (20, 1000)),
   ("teamDescription".data, (20, 3000)),
   ("uniqueAdvantage".data, (20, 1000)),
   ("investorContext".data, (50, 3000)),
   ("companyName".data, (1, 200)),
   ("contactName".data, (2, 100)),
   ("firstName".data, (1, 50)),
   ("lastName".data, (1, 50)),
   ("city".data, (1, 100)),
   ("state".data, (1, 100)),
   ("country".data, (1, 100)),
   ("zip".data, (2, 20))]

/-- Lookup in `LENGTH_CONSTRAINTS`. -/
def LENGTH_CONSTRAINTS (st : Str) : Option (Nat × Nat) :=
  dictGet LENGTH_CONSTRAINTS_table st

/-- The `company_suffixes` list of the person-vs-company check. -/
def company_suffixes : List Str :=
  ["inc".data, "llc".data, "ltd".data, "corp".data, "co".data,
   "company".data, "ai".data, "io".data]

/-- The `url_types` list of the URL plain-text guard. -/
def url_types : List Str :=
  ["website".data, "linkedinUrl".data, "twitterUrl".data, "videoUrl".data, "pitchDeckUrl".data]

/-- The `(True, None)` result of `validate_mapping`. -/
def accepted : Bool × Option Str := (true, none)

/-- The `(False, error_message)` result of `validate_mapping`. -/
def rejected (reason : Str) : Bool × Option Str := (false, some reason)

/-- The f-string `f'too short (min N chars)'`. -/
def tooShortMsg (n : Nat) : Str :=
  "too short (min ".data ++ (toString n).data ++ " chars)".data

/-- The f-string `f'too long (max N chars)'`. -/
def tooLongMsg (n : Nat) : Str :=
  "too long (max ".data ++ (toString n).data ++ " chars)".data

/-- The person-name heuristic of `validate_mapping`:
`words = value.lower().split()` and `words and words[-1] in company_suffixes`. -/
def endsWithCompanySuffix (value : Str) : Bool :=
  match (pySplit (pyLower value)).getLast? with
  | some w => company_suffixes.contains w
  | none => false

/-- Final stage of `validate_mapping`: the URL plain-text guard
(`if semantic_type in url_types: if not _looks_like_url(value) and
'linkedin' not in value.lower(): reject`). -/
def checkUrlGuard (st value : Str) : Bool × Option Str :=
  if st ∈ url_types then
    if looks_like_url value = false ∧ containsSub "linkedin".data (pyLower value) = false then
      rejected "must be a URL, not plain text".data
    else accepted
  else accepted

/-- Person-vs-company stage of `validate_mapping`. -/
def checkPerson (st value : Str) : Bool × Option Str :=
  if st = "contactName".data ∨ st = "firstName".data ∨ st = "lastName".data then
    if endsWithCompanySuffix value then
      rejected "appears to be a company name, not a person name".data
    else checkUrlGuard st value
  else checkUrlGuard st value

/-- Length-constraint stage of `validate_mapping`. -/
def checkLength (st value : Str) : Bool × Option Str :=
  match LENGTH_CONSTRAINTS st with
  | some (min_len, max_len) =>
    if value.length < min_len then rejected (tooShortMsg min_len)
    else if value.length > max_len then rejected (tooLongMsg max_len)
    else checkPerson st value
  | none => checkPerson st value

/-- Shape-rule stage of `validate_mapping`. -/
def checkShape (st value : Str) : Bool × Option Str :=
  match VALIDATION_RULES st with
  | some (validator, error_msg) =>
    if validator value = false then rejected error_msg else checkLength st value
  | none => checkLength st value

/-- `validate_mapping(field, value)`.  The field is represented by its
`semanticType` entry, `none` when the key is absent; `field.get` followed by
`if not semantic_type` also accepts the empty string.  After the trivial
accepts the value is replaced by its stripped form and flows through the
four rule stages in source order. -/
def validate_mapping (semanticType : Option Str) (value : Str) : Bool × Option Str :=
  if value = [] ∨ pyStrip value = [] then accepted
  else
    match semanticType with
    | none => accepted
    | some st => if st = [] then accepted else checkShape st (pyStrip value)

/-- The caller's sequential validation loop (`suggest_mappings`): each
candidate `(field, value)` pair is validated in order. -/
def validate_batch (candidates : List (Option Str × Str)) : List (Bool × Option Str) :=
  candidates.map (fun c => validate_mapping c.1 c.2)

/-! Lemmas about `pyStrip`, `pyLower` and the stage functions. -/

/-- The head of a `dropWhile` result fails the predicate. -/
theorem head?_dropWhile_false {α : Type} {p : α → Bool} {l : List α} {c : α}
    (h : (l.dropWhile p).head? = some c) : p c = false := by
  have hh := List.head?_dropWhile_not p l
  rw [h] at hh
  exact hh

/-- A list whose head fails the predicate is unchanged by `dropWhile`. -/
theorem dropWhile_eq_self_of_head {α : Type} {p : α → Bool} {l : List α}
    (h : ∀ c, l.head? = some c → p c = false) : l.dropWhile p = l := by
  cases l with
  | nil => rfl
  | cons c rest =>
    have hc := h c rfl
    simp [List.dropWhile_cons, hc]

/-- Conversely, a `dropWhile` fixed point has a head failing the predicate. -/
theorem head?_false_of_dropWhile_eq {α : Type} {p : α → Bool} {l : List α}
    (h : l.dropWhile p = l) : ∀ c, l.head? = some c → p c = false := by
  intro c hc
  cases l with
  | nil => cases hc
  | cons a rest =>
    obtain rfl : a = c := by simpa using hc
    by_contra hp
    rw [List.dropWhile_cons_of_pos (by simpa using hp)] at h
    have hlen := (List.dropWhile_sublist (l := rest) p).length_le
    rw [h] at hlen
    simp at hlen

/-- The head of a stripped string is not whitespace. -/
theorem head?_pyStrip_false {l : Str} {c : Char} (h : (pyStrip l).head? = some c) :
    isPySpace c = false := by
  unfold pyStrip at h
  rw [List.head?_reverse] at h
  obtain ⟨t, ht⟩ :=
    List.dropWhile_suffix (l := (l.dropWhile isPySpace).reverse) isPySpace
  have h2 : (l.dropWhile isPySpace).reverse.getLast? = some c := by
    rw [← ht, List.getLast?_append, h]
    rfl
  rw [List.getLast?_reverse] at h2
  exact head?_dropWhile_false h2

/-- A stripped string is unchanged by a further `dropWhile`. -/
theorem dropWhile_pyStrip (l : Str) : (pyStrip l).dropWhile isPySpace = pyStrip l :=
  dropWhile_eq_self_of_head (fun _ hc => head?_pyStrip_false hc)

/-- The reverse of a stripped string is unchanged by `dropWhile`. -/
theorem reverse_pyStrip_dropWhile (l : Str) :
    (pyStrip l).reverse.dropWhile isPySpace = (pyStrip l).reverse := by
  unfold pyStrip
  rw [List.reverse_reverse]
  exact dropWhile_eq_self_of_head (fun _ hc => head?_dropWhile_false hc)

/-- Python's `strip` is idempotent. -/
theorem pyStrip_idem (l : Str) : pyStrip (pyStrip l) = pyStrip l := by
  show (((pyStrip l).dropWhile isPySpace).reverse.dropWhile isPySpace).reverse = pyStrip l
  rw [dropWhile_pyStrip, reverse_pyStrip_dropWhile, List.reverse_reverse]

/-- Lowering an ASCII uppercase letter adds 32 to the code point. -/
theorem toNat_toLower_upper {c : Char} (h1 : 65 ≤ c.toNat) (h2 : c.toNat ≤ 90) :
    (Char.toLower c).toNat = c.toNat + 32 := by
  have hv : (c.toNat + 32).isValidChar := Or.inl (by omega)
  show (if c.toNat ≥ 65 ∧ c.toNat ≤ 90 then Char.ofNat (c.toNat + 32) else c).toNat =
    c.toNat + 32
  rw [if_pos ⟨h1, h2⟩, Char.ofNat, dif_pos hv]
  rfl

/-- Characters with code point above 96 are not Python whitespace. -/
theorem isPySpace_false_of_toNat_gt {x : Char} (h : 96 < x.toNat) : isPySpace x = false := by
  have hne : ∀ d : Char, d.toNat < 96 → (x == d) = false := by
    intro d hd
    rw [beq_eq_false_iff_ne]
    rintro rfl
    omega
  unfold isPySpace
  rw [hne ' ' (by decide), hne '\t' (by decide), hne '\n' (by decide),
      hne '\r' (by decide), hne '\x0b' (by decide), hne '\x0c' (by decide)]
  rfl

/-- `Char.toLower` maps non-whitespace to non-whitespace. -/
theorem isPySpace_toLower {c : Char} (h : isPySpace c = false) :
    isPySpace (Char.toLower c) = false := by
  by_cases hu : c.toNat ≥ 65 ∧ c.toNat ≤ 90
  · exact isPySpace_false_of_toNat_gt (by rw [toNat_toLower_upper hu.1 hu.2]; omega)
  · have hid : Char.toLower c = c := by
      show (if c.toNat ≥ 65 ∧ c.toNat ≤ 90 then Char.ofNat (c.toNat + 32) else c) = c
      rw [if_neg hu]
    rw [hid]
    exact h

/-- `map Char.toLower` preserves a non-whitespace head. -/
theorem head?_map_toLower_false {l : Str}
    (hl : ∀ c, l.head? = some c → isPySpace c = false) :
    ∀ c, (l.map Char.toLower).head? = some c → isPySpace c = false := by
  intro c hc
  rw [List.head?_map] at hc
  cases hh : l.head? with
  | none => rw [hh] at hc; cases hc
  | some a =>
    rw [hh] at hc
    obtain rfl : Char.toLower a = c := by simpa using hc
    exact isPySpace_toLower (hl a hh)

/-- Lowercasing an already stripped string leaves nothing to strip. -/
theorem pyStrip_pyLower_pyStrip (l : Str) :
    pyStrip (pyLower (pyStrip l)) = pyLower (pyStrip l) := by
  have h1 : (pyLower (pyStrip l)).dropWhile isPySpace = pyLower (pyStrip l) :=
    dropWhile_eq_self_of_head
      (head?_map_toLower_false (fun _ hc => head?_pyStrip_false hc))
  have h2 : (pyLower (pyStrip l)).reverse.dropWhile isPySpace = (pyLower (pyStrip l)).reverse := by
    simp only [pyLower, ← List.map_reverse]
    exact dropWhile_eq_self_of_head
      (head?_map_toLower_false (head?_false_of_dropWhile_eq (reverse_pyStrip_dropWhile l)))
  show (((pyLower (pyStrip l)).dropWhile isPySpace).reverse.dropWhile isPySpace).reverse =
    pyLower (pyStrip l)
  rw [h1, h2, List.reverse_reverse]

/-- Unfolding `validate_mapping` past the trivial accepts. -/
theorem validate_mapping_some {st value : Str} (hst : st ≠ []) (hne : pyStrip value ≠ []) :
    validate_mapping (some st) value = checkShape st (pyStrip value) := by
  have hcond : ¬(value = [] ∨ pyStrip value = []) := by
    rintro (h0 | h0)
    · exact hne (by rw [h0]; rfl)
    · exact hne h0
  show (if value = [] ∨ pyStrip value = [] then accepted
      else if st = [] then accepted else checkShape st (pyStrip value)) =
    checkShape st (pyStrip value)
  rw [if_neg hcond, if_neg hst]

/-- Unfolding the shape stage when the type has a registered rule. -/
theorem checkShape_some {st value : Str} {f : Str → Bool} {msg : Str}
    (hr : VALIDATION_RULES st = some (f, msg)) :
    checkShape st value =
      if f value = false then rejected msg else checkLength st value := by
  unfold checkShape
  rw [hr]

/-- Unfolding the shape stage when the type has no registered rule. -/
theorem checkShape_none {st value : Str} (hr : VALIDATION_RULES st = none) :
    checkShape st value = checkLength st value := by
  unfold checkShape
  rw [hr]

/-- Unfolding the length stage when the type has registered bounds. -/
theorem checkLength_some {st value : Str} {mn mx : Nat}
    (hr : LENGTH_CONSTRAINTS st = some (mn, mx)) :
    checkLength st value =
      if value.length < mn then rejected (tooShortMsg mn)
      else if value.length > mx then rejected (tooLongMsg mx)
      else checkPerson st value := by
  unfold checkLength
  rw [hr]

/-- Unfolding the length stage when the type has no registered bounds. -/
theorem checkLength_none {st value : Str} (hr : LENGTH_CONSTRAINTS st = none) :
    checkLength st value = checkPerson st value := by
  unfold checkLength
  rw [hr]

/-! Claim theorems. -/

/-- C1 counterexample: for the field `twitterUrl` and the non-blank,
URL-shape-failing value `"John Smith"`, the validator does not reject with
reason `"must be a valid URL"` (its reason is `"must be a valid Twitter/X
URL"`), so the claimed reason is wrong. -/
theorem C1_counterexample :
    pyStrip "John Smith".data ≠ [] ∧
    looks_like_url (pyStrip "John Smith".data) = false ∧
    validate_mapping (some "twitterUrl".data) "John Smith".data ≠
      rejected "must be a valid URL".data := by
  refine ⟨by decide, by decide, by decide⟩

/-- C1 (amended): for the field `twitterUrl`, every value that is non-empty
after trimming and fails the generic URL shape predicate is rejected with
reason exactly `"must be a valid Twitter/X URL"`. -/
theorem C1_twitter_reject (value : Str)
    (hne : pyStrip value ≠ [])
    (hurl : looks_like_url (pyStrip value) = false) :
    validate_mapping (some "twitterUrl".data) value =
      rejected "must be a valid Twitter/X URL".data := by
  have hr : VALIDATION_RULES "twitterUrl".data =
      some (looks_like_url, "must be a valid Twitter/X URL".data) := rfl
  rw [validate_mapping_some (by decide) hne, checkShape_some hr, if_pos hurl]

/-- C1 witness: `"John Smith"` in a `twitterUrl` field is rejected with the
Twitter/X reason. -/
theorem C1_witness :
    validate_mapping (some "twitterUrl".data) "John Smith".data =
      rejected "must be a valid Twitter/X URL".data :=
  C1_twitter_reject "John Smith".data (by decide) (by decide)

/-- C2: for every semantic type (present or absent, with or without rules)
and every value consisting only of whitespace (or empty), the validator
accepts. -/
theorem C2_blank_accept (semanticType : Option Str) (value : Str)
    (h : value.all isPySpace = true) :
    validate_mapping semanticType value = accepted := by
  have hstrip : pyStrip value = [] := by
    have hd : value.dropWhile isPySpace = [] :=
      List.dropWhile_eq_nil_iff.mpr (List.all_eq_true.mp h)
    unfold pyStrip
    rw [hd]
    rfl
  unfold validate_mapping
  rw [if_pos (Or.inr hstrip)]

/-- C2 witness: whitespace in an `email` field is accepted. -/
theorem C2_witness : validate_mapping (some "email".data) "   ".data = accepted :=
  C2_blank_accept (some "email".data) "   ".data (by decide)

/-- C3: for every non-empty value, a field whose semantic type is absent or
appears in no rule table (no shape rule, no length bounds, not a person-name
type, not a URL type) is accepted. -/
theorem C3_no_rule_accept (semanticType : Option Str) (value : Str)
    (_hv : value ≠ [])
    (hst : ∀ s, semanticType = some s →
      VALIDATION_RULES s = none ∧ LENGTH_CONSTRAINTS s = none ∧
      ¬(s = "contactName".data ∨ s = "firstName".data ∨ s = "lastName".data) ∧
      s ∉ url_types) :
    validate_mapping semanticType value = accepted := by
  by_cases hstrip : value = [] ∨ pyStrip value = []
  · unfold validate_mapping
    rw [if_pos hstrip]
  · cases semanticType with
    | none =>
      unfold validate_mapping
      rw [if_neg hstrip]
    | some s =>
      obtain ⟨h1, h2, h3, h4⟩ := hst s rfl
      by_cases hs0 : s = []
      · subst hs0
        unfold validate_mapping
        rw [if_neg hstrip]
        rfl
      · have hne : pyStrip value ≠ [] := fun hc => hstrip (Or.inr hc)
        rw [validate_mapping_some hs0 hne, checkShape_none h1, checkLength_none h2]
        unfold checkPerson
        rw [if_neg h3]
        unfold checkUrlGuard
        rw [if_neg h4]

/-- C3 witness: an unknown semantic type accepts a non-empty value. -/
theorem C3_witness : validate_mapping (some "favoriteColor".data) "x".data = accepted := by
  refine C3_no_rule_accept (some "favoriteColor".data) "x".data (by decide) ?_
  intro s hs
  cases hs
  exact ⟨rfl, rfl, by decide, by decide⟩

/-- The email shape rule on an already stripped non-empty value holds exactly
when the value is at most 320 characters and matches the email regex. -/
theorem looks_like_email_pyStrip (value : Str) (hne : pyStrip value ≠ []) :
    looks_like_email (pyStrip value) = true ↔
      ((pyStrip value).length ≤ 320 ∧ matchEmail (pyStrip value) = true) := by
  unfold looks_like_email
  rw [pyStrip_idem]
  by_cases h320 : (pyStrip value).length ≤ 320
  · rw [if_neg (by rintro (hc | hgt); exacts [hne hc, by omega])]
    exact ⟨fun hm => ⟨h320, hm⟩, fun hc => hc.2⟩
  · rw [if_pos (Or.inr (by omega))]
    exact ⟨fun hf => absurd hf (by decide), fun hc => absurd hc.1 h320⟩

/-- C4: for a field with semantic type `email` and a value that is non-empty
after trimming, the validator accepts exactly when the trimmed value is at
most 320 characters and matches `^[^\s@]+@[^\s@]+\.[^\s@]+$`, and otherwise
rejects with reason exactly `"must be a valid email address"`. -/
theorem C4_email_rule (value : Str) (hne : pyStrip value ≠ []) :
    ((pyStrip value).length ≤ 320 ∧ matchEmail (pyStrip value) = true →
      validate_mapping (some "email".data) value = accepted) ∧
    (¬((pyStrip value).length ≤ 320 ∧ matchEmail (pyStrip value) = true) →
      validate_mapping (some "email".data) value =
        rejected "must be a valid email address".data) := by
  have hr : VALIDATION_RULES "email".data =
      some (looks_like_email, "must be a valid email address".data) := rfl
  have hL : LENGTH_CONSTRAINTS "email".data = none := rfl
  constructor
  · intro h
    have hv : looks_like_email (pyStrip value) = true :=
      (looks_like_email_pyStrip value hne).mpr h
    rw [validate_mapping_some (by decide) hne, checkShape_some hr,
        if_neg (by rw [hv]; decide), checkLength_none hL]
    unfold checkPerson
    rw [if_neg (by decide)]
    unfold checkUrlGuard
    rw [if_neg (by decide)]
  · intro h
    have hv : looks_like_email (pyStrip value) = false := by
      cases hb : looks_like_email (pyStrip value) with
      | false => rfl
      | true => exact absurd ((looks_like_email_pyStrip value hne).mp hb) h
    rw [validate_mapping_some (by decide) hne, checkShape_some hr, if_pos hv]

/-- C4 witness: `"jane@acme.com"` is accepted and `"not-an-email"` is
rejected with the email reason. -/
theorem C4_witness :
    validate_mapping (some "email".data) "jane@acme.com".data = accepted ∧
    validate_mapping (some "email".data) "not-an-email".data =
      rejected "must be a valid email address".data :=
  ⟨(C4_email_rule "jane@acme.com".data (by decide)).1 (by decide),
   (C4_email_rule "not-an-email".data (by decide)).2 (by decide)⟩

/-- C5: for the person-name semantic types, a value that survives the earlier
stages (non-blank, within the registered length bounds) whose last
whitespace token, lowercased, is a company suffix is rejected with reason
exactly `"appears to be a company name, not a person name"`. -/
theorem C5_person_reject (st value : Str)
    (hst : st = "contactName".data ∨ st = "firstName".data ∨ st = "lastName".data)
    (hne : pyStrip value ≠ [])
    (hlen : ∀ mn mx, LENGTH_CONSTRAINTS st = some (mn, mx) →
      mn ≤ (pyStrip value).length ∧ (pyStrip value).length ≤ mx)
    (hco : endsWithCompanySuffix (pyStrip value) = true) :
    validate_mapping (some st) value =
      rejected "appears to be a company name, not a person name".data := by
  have hst0 : st ≠ [] := by
    rcases hst with h | h | h <;> subst h <;> decide
  have hshape : VALIDATION_RULES st = none := by
    rcases hst with h | h | h <;> subst h <;> rfl
  obtain ⟨mn, mx, hc⟩ : ∃ mn mx, LENGTH_CONSTRAINTS st = some (mn, mx) := by
    rcases hst with h | h | h <;> subst h
    · exact ⟨2, 100, rfl⟩
    · exact ⟨1, 50, rfl⟩
    · exact ⟨1, 50, rfl⟩
  obtain ⟨hmn, hmx⟩ := hlen mn mx hc
  rw [validate_mapping_some hst0 hne, checkShape_none hshape, checkLength_some hc,
      if_neg (by omega), if_neg (by omega)]
  unfold checkPerson
  rw [if_pos hst, if_pos hco]

/-- C5 witness: `"Acme Inc"` in a `contactName` field is rejected as a
company name. -/
theorem C5_witness :
    validate_mapping (some "contactName".data) "Acme Inc".data =
      rejected "appears to be a company name, not a person name".data := by
  refine C5_person_reject "contactName".data "Acme Inc".data (Or.inl rfl) (by decide)
    ?_ (by decide)
  intro mn mx h
  simp only [show LENGTH_CONSTRAINTS "contactName".data = some (2, 100) from rfl,
    Option.some.injEq, Prod.mk.injEq] at h
  obtain ⟨rfl, rfl⟩ := h
  exact ⟨by decide, by decide⟩

/-- Every `(min, max)` pair in `LENGTH_CONSTRAINTS` satisfies `min ≤ max`. -/
theorem LENGTH_CONSTRAINTS_min_le_max {st : Str} {mn mx : Nat}
    (h : LENGTH_CONSTRAINTS st = some (mn, mx)) : mn ≤ mx := by
  unfold LENGTH_CONSTRAINTS dictGet at h
  cases hf : LENGTH_CONSTRAINTS_table.find? (fun e => e.1 == st) with
  | none => rw [hf] at h; cases h
  | some e =>
    rw [hf] at h
    have h2 : e.2 = (mn, mx) := by simpa using h
    have hok : ∀ x ∈ LENGTH_CONSTRAINTS_table, x.2.1 ≤ x.2.2 := by decide
    have h3 := hok e (List.mem_of_find?_eq_some hf)
    rw [h2] at h3
    exact h3

/-- C6: for every semantic type with registered length bounds `(mn, mx)` and
every non-blank value passing any applicable shape rule, the validator
rejects values whose trimmed length is below `mn` with reason
`"too short (min mn chars)"` and values whose trimmed length exceeds `mx`
with reason `"too long (max mx chars)"`. -/
theorem C6_length_reject (st value : Str) (mn mx : Nat)
    (hc : LENGTH_CONSTRAINTS st = some (mn, mx))
    (hne : pyStrip value ≠ [])
    (hshape : ∀ f msg, VALIDATION_RULES st = some (f, msg) → f (pyStrip value) = true) :
    ((pyStrip value).length < mn →
      validate_mapping (some st) value = rejected (tooShortMsg mn)) ∧
    ((pyStrip value).length > mx →
      validate_mapping (some st) value = rejected (tooLongMsg mx)) := by
  have hst0 : st ≠ [] := by
    intro h0
    rw [h0, show LENGTH_CONSTRAINTS ([] : Str) = none from rfl] at hc
    cases hc
  have hsh : checkShape st (pyStrip value) = checkLength st (pyStrip value) := by
    rcases hr : VALIDATION_RULES st with _ | ⟨f, msg⟩
    · exact checkShape_none hr
    · have ht := hshape f msg hr
      rw [checkShape_some hr, if_neg (by rw [ht]; decide)]
  have hmm : mn ≤ mx := LENGTH_CONSTRAINTS_min_le_max hc
  constructor
  · intro hlt
    rw [validate_mapping_some hst0 hne, hsh, checkLength_some hc, if_pos hlt]
  · intro hgt
    rw [validate_mapping_some hst0 hne, hsh, checkLength_some hc,
        if_neg (by omega), if_pos hgt]

/-- C6 witness: `"Hi"` in a `shortDescription` field is rejected with reason
exactly `"too short (min 20 chars)"`. -/
theorem C6_witness :
    validate_mapping (some "shortDescription".data) "Hi".data =
      rejected "too short (min 20 chars)".data := by
  have h := (C6_length_reject "shortDescription".data "Hi".data 20 500 rfl (by decide)
    (by
      intro f msg hfm
      rw [show VALIDATION_RULES "shortDescription".data = none from rfl] at hfm
      cases hfm)).1 (by decide)
  rw [h]
  decide

/-- Boolean `isPrefixOf` is transitive. -/
theorem isPrefixOf_trans {l₁ l₂ l₃ : Str} (h₁ : l₁.isPrefixOf l₂ = true)
    (h₂ : l₂.isPrefixOf l₃ = true) : l₁.isPrefixOf l₃ = true := by
  simp only [ List.isPrefixOf_iff_prefix] at h₁ h₂ ⊢
  exact h₁.trans h₂

/-- A boolean prefix is a substring. -/
theorem containsSub_of_isPrefixOf {pat l : Str} (h : pat.isPrefixOf l = true) :
    containsSub pat l = true := by
  cases l with
  | nil => exact h
  | cons c rest =>
    unfold containsSub
    rw [h]
    rfl

/-- `containsSub` decides the infix relation. -/
theorem containsSub_infix_iff {pat l : Str} : containsSub pat l = true ↔ pat <:+: l := by
  induction l with
  | nil =>
    show pat.isPrefixOf [] = true ↔ _
    rw [ List.isPrefixOf_iff_prefix, List.prefix_nil, List.infix_nil]
  | cons c rest ih =>
    show (pat.isPrefixOf (c :: rest) || containsSub pat rest) = true ↔ _
    rw [Bool.or_eq_true, List.infix_cons_iff, ih, List.isPrefixOf_iff_prefix]

/-- C7: `"John Smith"` is rejected for `linkedinUrl`,
`"linkedin.com/in/johnsmith"` is accepted, and the LinkedIn shape rule holds
exactly for values of length at most 2000 whose lowercased trimmed form
contains `"linkedin"`, starts with `"http"`, or contains both `"/"` and
`"."` (the second branch of the source, for `linkedin.com/` prefixes, is
subsumed by the `"linkedin"` containment). -/
theorem C7_linkedin_rule :
    validate_mapping (some "linkedinUrl".data) "John Smith".data =
      rejected "must be a LinkedIn URL".data ∧
    validate_mapping (some "linkedinUrl".data) "linkedin.com/in/johnsmith".data = accepted ∧
    ∀ value : Str, looks_like_linkedin_url value = true ↔
      (value.length ≤ 2000 ∧
        (containsSub "linkedin".data (pyStrip (pyLower value)) = true ∨
         "http".data.isPrefixOf (pyStrip (pyLower value)) = true ∨
         (containsSub "/".data (pyStrip (pyLower value)) = true ∧
          containsSub ".".data (pyStrip (pyLower value)) = true))) := by
  refine ⟨by decide, by decide, ?_⟩
  intro value
  unfold looks_like_linkedin_url
  by_cases h0 : value = [] ∨ value.length > 2000
  · rw [if_pos h0]
    rcases h0 with h0 | h0
    · subst h0
      decide
    · exact ⟨fun hf => absurd hf (by decide), fun hc => absurd hc.1 (by omega)⟩
  · rw [if_neg h0]
    push_neg at h0
    by_cases h1 : containsSub "linkedin".data (pyStrip (pyLower value)) ∨
        "http".data.isPrefixOf (pyStrip (pyLower value)) ∨
        (containsSub "/".data (pyStrip (pyLower value)) ∧
         containsSub ".".data (pyStrip (pyLower value)))
    · rw [if_pos h1]
      exact ⟨fun _ => ⟨h0.2, h1⟩, fun _ => rfl⟩
    · rw [if_neg h1]
      by_cases h2 : "linkedin.com/".data.isPrefixOf (pyStrip (pyLower value)) ∨
          "www.linkedin.com/".data.isPrefixOf (pyStrip (pyLower value))
      · refine absurd (Or.inl ?_) h1
        rw [containsSub_infix_iff]
        rcases h2 with hp | hp
        · rw [ List.isPrefixOf_iff_prefix] at hp
          exact (containsSub_infix_iff.mp (by decide :
            containsSub "linkedin".data "linkedin.com/".data = true)).trans hp.isInfix
        · rw [ List.isPrefixOf_iff_prefix] at hp
          exact (containsSub_infix_iff.mp (by decide :
            containsSub "linkedin".data "www.linkedin.com/".data = true)).trans hp.isInfix
      · rw [if_neg h2]
        exact ⟨fun hf => absurd hf (by decide), fun hc => absurd hc.2 h1⟩

/-- C7 witness: plain prose containing `"linkedin"` satisfies the LinkedIn
shape rule through the characterization. -/
theorem C7_witness : looks_like_linkedin_url "my linkedin page".data = true :=
  (C7_linkedin_rule.2.2 "my linkedin page".data).mpr (by decide)

/-- The URL-guard stage returns `accepted` or a `rejected` reason. -/
theorem checkUrlGuard_cases (st value : Str) :
    checkUrlGuard st value = accepted ∨ ∃ r, checkUrlGuard st value = rejected r := by
  unfold checkUrlGuard
  split_ifs
  · exact Or.inr ⟨_, rfl⟩
  · exact Or.inl rfl
  · exact Or.inl rfl

/-- The person stage returns `accepted` or a `rejected` reason. -/
theorem checkPerson_cases (st value : Str) :
    checkPerson st value = accepted ∨ ∃ r, checkPerson st value = rejected r := by
  unfold checkPerson
  split_ifs
  · exact Or.inr ⟨_, rfl⟩
  · exact checkUrlGuard_cases st value
  · exact checkUrlGuard_cases st value

/-- The length stage returns `accepted` or a `rejected` reason. -/
theorem checkLength_cases (st value : Str) :
    checkLength st value = accepted ∨ ∃ r, checkLength st value = rejected r := by
  rcases hL : LENGTH_CONSTRAINTS st with _ | ⟨mn, mx⟩
  · rw [checkLength_none hL]
    exact checkPerson_cases st value
  · rw [checkLength_some hL]
    split_ifs
    · exact Or.inr ⟨_, rfl⟩
    · exact Or.inr ⟨_, rfl⟩
    · exact checkPerson_cases st value

/-- The shape stage returns `accepted` or a `rejected` reason. -/
theorem checkShape_cases (st value : Str) :
    checkShape st value = accepted ∨ ∃ r, checkShape st value = rejected r := by
  rcases hR : VALIDATION_RULES st with _ | ⟨f, msg⟩
  · rw [checkShape_none hR]
    exact checkLength_cases st value
  · rw [checkShape_some hR]
    split_ifs
    · exact Or.inr ⟨_, rfl⟩
    · exact checkLength_cases st value

/-- The validator always returns `accepted` or a `rejected` reason. -/
theorem validate_mapping_cases (semanticType : Option Str) (value : Str) :
    validate_mapping semanticType value = accepted ∨
      ∃ r, validate_mapping semanticType value = rejected r := by
  by_cases h0 : value = [] ∨ pyStrip value = []
  · left
    unfold validate_mapping
    rw [if_pos h0]
  · cases semanticType with
    | none =>
      left
      unfold validate_mapping
      rw [if_neg h0]
    | some st =>
      by_cases hst : st = []
      · left
        show (if value = [] ∨ pyStrip value = [] then accepted
            else if st = [] then accepted else checkShape st (pyStrip value)) = accepted
        rw [if_neg h0, if_pos hst]
      · have h := checkShape_cases st (pyStrip value)
        rw [← validate_mapping_some hst (fun hc => h0 (Or.inr hc))] at h
        exact h

/-- C8: for every field descriptor (absent or string semantic type) and every
value, the validator terminates with exactly one of the two outcomes
`accepted` or `rejected reason` — there is no exception path — and the
blank-value, absent-type and empty-type cases all take the accepted path. -/
theorem C8_total_outcomes (semanticType : Option Str) (value : Str) :
    (validate_mapping semanticType value = accepted ∨
      ∃ r, validate_mapping semanticType value = rejected r) ∧
    ((pyStrip value = [] ∨ semanticType = none ∨ semanticType = some []) →
      validate_mapping semanticType value = accepted) := by
  refine ⟨validate_mapping_cases semanticType value, ?_⟩
  rintro (h | h | h)
  · unfold validate_mapping
    rw [if_pos (Or.inr h)]
  · subst h
    by_cases h0 : value = [] ∨ pyStrip value = []
    · unfold validate_mapping
      rw [if_pos h0]
    · unfold validate_mapping
      rw [if_neg h0]
  · subst h
    by_cases h0 : value = [] ∨ pyStrip value = []
    · unfold validate_mapping
      rw [if_pos h0]
    · show (if value = [] ∨ pyStrip value = [] then accepted
          else if ([] : Str) = [] then accepted
          else checkShape [] (pyStrip value)) = accepted
      rw [if_neg h0, if_pos rfl]

/-- C8 witness: an absent semantic type takes the accepted path. -/
theorem C8_witness : validate_mapping none "anything".data = accepted :=
  (C8_total_outcomes none "anything".data).2 (Or.inr (Or.inl rfl))

/-- C9: the validator is deterministic and stateless — in any batch of
invocations, the outcome at a given position is `validate_mapping` of that
position's input alone, so two invocations on identical inputs agree no
matter what other invocations surround them. -/
theorem C9_deterministic (semanticType : Option Str) (value : Str)
    (pre₁ post₁ pre₂ post₂ : List (Option Str × Str)) :
    (validate_batch (pre₁ ++ (semanticType, value) :: post₁))[pre₁.length]? =
      some (validate_mapping semanticType value) ∧
    (validate_batch (pre₁ ++ (semanticType, value) :: post₁))[pre₁.length]? =
      (validate_batch (pre₂ ++ (semanticType, value) :: post₂))[pre₂.length]? := by
  have key : ∀ pre post : List (Option Str × Str),
      (validate_batch (pre ++ (semanticType, value) :: post))[pre.length]? =
        some (validate_mapping semanticType value) := by
    intro pre post
    unfold validate_batch
    rw [List.getElem?_map, List.getElem?_append_right (Nat.le_refl _), Nat.sub_self]
    simp
  exact ⟨key pre₁ post₁, (key pre₁ post₁).trans (key pre₂ post₂).symm⟩

/-- C10: for a `linkedinUrl` field, every value that is non-blank, of trimmed
length at most 2000, and whose lowercased trimmed form contains
`"linkedin"`, is accepted — containing `"linkedin"` satisfies the shape rule
and also waives the URL plain-text guard. -/
theorem C10_linkedin_prose (value : Str)
    (hne : pyStrip value ≠ [])
    (hlen : (pyStrip value).length ≤ 2000)
    (hsub : containsSub "linkedin".data (pyLower (pyStrip value)) = true) :
    validate_mapping (some "linkedinUrl".data) value = accepted := by
  have hr : VALIDATION_RULES "linkedinUrl".data =
      some (looks_like_linkedin_url, "must be a LinkedIn URL".data) := rfl
  have hL : LENGTH_CONSTRAINTS "linkedinUrl".data = none := rfl
  have hshape : looks_like_linkedin_url (pyStrip value) = true := by
    unfold looks_like_linkedin_url
    rw [if_neg (by rintro (hc | hc); exacts [hne hc, by omega]),
        if_pos (Or.inl (by rw [pyStrip_pyLower_pyStrip]; exact hsub))]
  rw [validate_mapping_some (by decide) hne, checkShape_some hr,
      if_neg (by rw [hshape]; decide), checkLength_none hL]
  unfold checkPerson
  rw [if_neg (by decide)]
  unfold checkUrlGuard
  rw [if_pos (by decide),
      if_neg (by rintro ⟨-, hb⟩; rw [hsub] at hb; exact absurd hb (by decide))]

/-- C10 witness: the prose value `"my linkedin is John Smith"` is accepted in
a `linkedinUrl` field. -/
theorem C10_witness :
    validate_mapping (some "linkedinUrl".data) "my linkedin is John Smith".data = accepted :=
  C10_linkedin_prose "my linkedin is John Smith".data (by decide) (by decide) (by decide)

end FormPilot
